import Mathlib

/-!
Shallow embedding of the merchant-dashboard aggregation pipeline
(`src/app.py`, lines 95-181) and proofs about it.

Modelling conventions:
* A raw transaction row is embedded after the two coercing parses of
  `app.py` lines 127-128: `pd.to_datetime(..., errors="coerce")` and
  `pd.to_numeric(..., errors="coerce")` turn unparsable cells into
  NaT / NaN, which we embed as `none`.  Calendar dates are day numbers
  (`Nat`); monetary amounts are exact rationals (`ℚ`).
* The merchant cell before `astype(str)` is `Option String` (`none` is a
  missing/null cell; `astype(str)` renders it as the literal "nan").
* pandas aggregation semantics on a group: `sum` over `Settle Amount`
  skips NaN and returns 0 on an all-NaN group; `count` counts the
  non-NaN values only; `.where(orders > 0)` makes `aov` NaN (absent)
  on a zero-count group.
-/

namespace Dashboard

/-- One raw transaction row after the coercing parses of `app.py`
lines 127-128.  `merchant` is the raw "Merchant Number - Business Name"
cell, `txTime` the parsed "Transaction Date" (`none` = NaT),
`amount` the parsed "Settle Amount" (`none` = NaN). -/
structure RawRow where
  merchant : Option String
  txTime : Option Nat
  amount : Option ℚ
deriving DecidableEq

/-- `astype(str)` on the merchant column (`app.py` line 131): a string
cell is rendered as itself, a missing/NaN cell as the literal "nan". -/
def stringifyMerchant : Option String → String
  | none => "nan"
  | some s => s

/-- `.str.strip()` (`app.py` line 131): remove leading and trailing
whitespace characters from a string. -/
def stripStr (s : String) : String :=
  ⟨((s.data.dropWhile Char.isWhitespace).reverse.dropWhile Char.isWhitespace).reverse⟩

/-- The cleaned merchant key of a row:
`astype(str).str.strip()` (`app.py` line 131). -/
def cleanMerchant (r : RawRow) : String :=
  stripStr (stringifyMerchant r.merchant)

/-- The merchant mask of `app.py` line 139: exact string equality of the
cleaned merchant-key column against the session `merchant_id`. -/
def merchantMatch (r : RawRow) (merchantId : String) : Bool :=
  cleanMerchant r == merchantId

/-- `merchant_tx = tx.loc[merchant_mask]` (`app.py` lines 139-140):
keep exactly the rows whose cleaned merchant key equals the session
merchant id.  This is the spec's `filter_and_parse` (the parses
themselves are embedded in `RawRow`). -/
def filter_and_parse (rows : List RawRow) (merchantId : String) : List RawRow :=
  rows.filter (fun r => merchantMatch r merchantId)

/-- One aggregated output row (`daily` frame of `app.py` lines 152-161). -/
structure DailyMetric where
  date : Nat
  revenue : ℚ
  orders : Nat
  aov : Option ℚ
deriving DecidableEq

/-- Group revenue: pandas `("Settle Amount", "sum")` skips NaN amounts
and yields 0 on an all-NaN group (`app.py` line 155). -/
def revenueOf (g : List RawRow) : ℚ :=
  (g.filterMap (fun r => r.amount)).sum

/-- Group order count: pandas `("Settle Amount", "count")` counts the
non-NaN values of the "Settle Amount" column (`app.py` line 156). -/
def ordersOf (g : List RawRow) : Nat :=
  (g.filterMap (fun r => r.amount)).length

/-- `aov = (revenue / orders).where(orders > 0)` (`app.py` line 161):
NaN (absent) when the count is zero. -/
def aovOf (rev : ℚ) (ord : Nat) : Option ℚ :=
  if 0 < ord then some (rev / (ord : ℚ)) else none

/-- The aggregated row for one valid group date `d`: the group is the
rows whose parsed date is `d`, and the three aggregates are computed
as in `app.py` lines 152-161. -/
def metricFor (rows : List RawRow) (d : Nat) : DailyMetric :=
  let g := rows.filter (fun r => r.txTime == some d)
  { date := d
    revenue := revenueOf g
    orders := ordersOf g
    aov := aovOf (revenueOf g) (ordersOf g) }

/-- The valid (non-NaT) parsed dates occurring in `rows`. -/
def validDates (rows : List RawRow) : List Nat :=
  rows.filterMap (fun r => r.txTime)

/-- The distinct valid group dates in ascending order: the group keys of
the `groupby` after `dropna(subset=["date"])` and `sort_values("date")`
(`app.py` lines 154 and 168). -/
def sortedValidDates (rows : List RawRow) : List Nat :=
  (validDates rows).dedup.insertionSort (· ≤ ·)

/-- Terminal error conditions of the pipeline. -/
inductive AggError where
  | noValidDates
deriving DecidableEq

/-- The daily aggregation of `app.py` lines 152-168: group by the
calendar-date part of the parsed transaction time (`dropna=False`, so a
NaT group exists while the guard runs), fail with `NoValidDates` when
every group key is NaN (`daily["date"].isna().all()`, line 164; on an
empty input the check is vacuously true), otherwise drop the NaT group
and sort ascending by date. -/
def aggregate_daily (rows : List RawRow) : Except AggError (List DailyMetric) :=
  if validDates rows = [] then
    .error .noValidDates
  else
    .ok ((sortedValidDates rows).map (metricFor rows))

/-- Observable outcome of a render of the pipeline, for one merchant:
`emptyState` is the non-fatal `st.warning` + `st.stop()` of lines
142-144, `fatal` the `st.error` + `st.stop()` of lines 163-166, `ok`
the rendered metric table. -/
inductive Outcome where
  | emptyState (merchantId : String)
  | fatal (e : AggError)
  | ok (metrics : List DailyMetric)
deriving DecidableEq

/-- The pipeline from parsed rows to the rendered daily table
(`app.py` lines 139-168): filter to the merchant, stop with a warning
(informational empty state) when nothing matches, then aggregate. -/
def pipeline (rows : List RawRow) (merchantId : String) : Outcome :=
  let matched := filter_and_parse rows merchantId
  if matched = [] then
    .emptyState merchantId
  else
    match aggregate_daily matched with
    | .error e => .fatal e
    | .ok ms => .ok ms

/-- The sidebar date-range filter (`app.py` line 181): keep the rows of
the daily table whose date lies within the inclusive bounds. -/
def filter_range (rows : List DailyMetric) (startDate endDate : Nat) : List DailyMetric :=
  rows.filter (fun m => startDate ≤ m.date && m.date ≤ endDate)

/-- The loaded transactions table (the parsed CSV contents). -/
structure Table where
  rows : List RawRow
deriving DecidableEq

/-- Outcome of `load_transactions` (`app.py` lines 95-107): either the
first successfully read table together with the path it was read from
(the `df["__path__"] = p` tag), or the final `FileNotFoundError`
carrying the last underlying error (`none` when the path list itself
was empty, i.e. `last_err = None`). -/
inductive LoadOutcome where
  | ok (path : String) (t : Table)
  | dataUnavailable (lastErr : Option String)
deriving DecidableEq

/-- The loop body of `load_transactions`: try each path in order,
remembering the most recent error (`app.py` lines 99-106). `fs` embeds
`pd.read_csv`: what reading each path yields. -/
def loadLoop (fs : String → Except String Table) :
    List String → Option String → LoadOutcome
  | [], lastErr => .dataUnavailable lastErr
  | p :: ps, lastErr =>
    match fs p with
    | .ok t => .ok p t
    | .error e => loadLoop fs ps (some e)

/-- `load_transactions` (`app.py` lines 95-107): try the candidate
paths in order with no error recorded yet. -/
def load_transactions (fs : String → Except String Table)
    (paths : List String) : LoadOutcome :=
  loadLoop fs paths none

/-! ## Helper lemmas -/

theorem mem_filter_and_parse {rows : List RawRow} {mid : String} {r : RawRow} :
    r ∈ filter_and_parse rows mid ↔
      r ∈ rows ∧ stripStr (stringifyMerchant r.merchant) = mid := by
  simp [filter_and_parse, List.mem_filter, merchantMatch, cleanMerchant]

theorem aggregate_daily_ok_eq {rows : List RawRow} {ms : List DailyMetric}
    (h : aggregate_daily rows = Except.ok ms) :
    ms = (sortedValidDates rows).map (metricFor rows) := by
  rw [aggregate_daily] at h
  by_cases hv : validDates rows = []
  · rw [if_pos hv] at h
    exact absurd h (by simp)
  · rw [if_neg hv] at h
    injection h with h
    exact h.symm

theorem mem_of_aggregate_ok {rows : List RawRow} {ms : List DailyMetric}
    (h : aggregate_daily rows = Except.ok ms) {m : DailyMetric} (hm : m ∈ ms) :
    ∃ d, m = metricFor rows d ∧ ∃ r ∈ rows, r.txTime = some d := by
  rw [aggregate_daily_ok_eq h] at hm
  rcases List.mem_map.mp hm with ⟨d, hd, rfl⟩
  refine ⟨d, rfl, ?_⟩
  have h1 : d ∈ (validDates rows).dedup :=
    ((List.perm_insertionSort _ _).mem_iff).mp hd
  have h2 : d ∈ validDates rows := List.mem_dedup.mp h1
  rcases List.mem_filterMap.mp h2 with ⟨r, hr, hrt⟩
  exact ⟨r, hr, hrt⟩

/-! ## Claims -/

/-- C4: a row passes the merchant filter exactly when its stringified,
whitespace-trimmed merchant key is string-equal (case-sensitively, with
no fuzzy matching) to the supplied merchant identifier; in particular a
stored key " M001 " (with padding) matches the query key "M001", while
"m001" does not. -/
theorem C4_exact_post_trim_match :
    (∀ (rows : List RawRow) (mid : String) (r : RawRow),
        r ∈ filter_and_parse rows mid ↔
          r ∈ rows ∧ stripStr (stringifyMerchant r.merchant) = mid) ∧
    merchantMatch ⟨some " M001 ", none, none⟩ "M001" = true ∧
    merchantMatch ⟨some "m001", none, none⟩ "M001" = false := by
  refine ⟨fun rows mid r => mem_filter_and_parse, by decide, by decide⟩

/-- C10: merchant matching is performed over stringified values: a
missing/null merchant key is rendered as the literal string "nan" by
`astype(str)`, and such a row matches the merchant identifier "nan". -/
theorem C10_missing_key_matches_nan :
    stringifyMerchant none = "nan" ∧
    (∀ (r : RawRow) (mid : String),
        merchantMatch r mid = (stripStr (stringifyMerchant r.merchant) == mid)) ∧
    filter_and_parse [⟨none, some 0, some 1⟩] "nan" = [⟨none, some 0, some 1⟩] := by
  refine ⟨rfl, fun r mid => rfl, by decide⟩

/-- C7: the date-range filter keeps exactly the daily rows whose date
lies within the inclusive bounds, as a subsequence of the input; with
bounds outside the data it simply returns a shorter or empty list,
never an error. -/
theorem C7_filter_range_inclusive (rows : List DailyMetric) (s e : Nat) :
    (filter_range rows s e).Sublist rows ∧
    (filter_range rows s e).length ≤ rows.length ∧
    (∀ m, m ∈ filter_range rows s e ↔ m ∈ rows ∧ s ≤ m.date ∧ m.date ≤ e) ∧
    (∀ m, s ≤ m.date → m.date ≤ e →
        (filter_range rows s e).count m = rows.count m) := by
  refine ⟨List.filter_sublist _, (List.filter_sublist _).length_le, ?_, ?_⟩
  · intro m
    simp [filter_range, List.mem_filter, and_assoc]
  · intro m h1 h2
    exact List.count_filter (by simp [h1, h2])

/-- Witness for C7 at a concrete row and in-range bounds. -/
theorem C7_filter_range_inclusive_witness :
    (filter_range [⟨5, 0, 2, none⟩] 0 9).count ⟨5, 0, 2, none⟩ =
      ([(⟨5, 0, 2, none⟩ : DailyMetric)]).count ⟨5, 0, 2, none⟩ :=
  (C7_filter_range_inclusive [⟨5, 0, 2, none⟩] 0 9).2.2.2 ⟨5, 0, 2, none⟩
    (by decide) (by decide)

/-- C9: applying the date-range filter twice with the same bounds gives
the same result as applying it once. -/
theorem C9_filter_range_idempotent (rows : List DailyMetric) (s e : Nat) :
    filter_range (filter_range rows s e) s e = filter_range rows s e := by
  simp [filter_range, List.filter_filter]

/-- C5: every emitted daily row carries `aov = revenue / orders` when
its order count is positive, and an absent `aov` (no division) when the
order count is zero. -/
theorem C5_aov_division_guard (rows : List RawRow) (ms : List DailyMetric)
    (h : aggregate_daily rows = Except.ok ms) :
    ∀ m ∈ ms, (0 < m.orders → m.aov = some (m.revenue / (m.orders : ℚ))) ∧
      (m.orders = 0 → m.aov = none) := by
  intro m hm
  rcases mem_of_aggregate_ok h hm with ⟨d, rfl, -⟩
  have haov : (metricFor rows d).aov =
      aovOf (metricFor rows d).revenue (metricFor rows d).orders := rfl
  constructor
  · intro hpos
    rw [haov, aovOf, if_pos hpos]
  · intro h0
    rw [haov, aovOf, if_neg (by omega)]

/-- Witness for C5 at a concrete aggregation. -/
theorem C5_aov_division_guard_witness :
    (⟨0, 0, 0, none⟩ : DailyMetric).aov = none :=
  (C5_aov_division_guard [⟨some "M", some 0, none⟩] [⟨0, 0, 0, none⟩] rfl
    ⟨0, 0, 0, none⟩ (by simp)).2 rfl

/-- C6: the aggregation fails with `NoValidDates` exactly when no input
row has a parsable date; otherwise the emitted rows are in strictly
ascending date order and every emitted date comes from some row with
that parsable date (groups with an unparsable/absent date are
excluded). -/
theorem C6_sorted_dates_and_guard (rows : List RawRow) :
    (aggregate_daily rows = Except.error AggError.noValidDates ↔
      ∀ r ∈ rows, r.txTime = none) ∧
    ∀ ms, aggregate_daily rows = Except.ok ms →
      List.Sorted (· < ·) (ms.map (fun m => m.date)) ∧
      ∀ m ∈ ms, ∃ r ∈ rows, r.txTime = some m.date := by
  have hiff : validDates rows = [] ↔ ∀ r ∈ rows, r.txTime = none := by
    simp [validDates, List.filterMap_eq_nil_iff]
  constructor
  · rw [aggregate_daily]
    by_cases hv : validDates rows = []
    · rw [if_pos hv]
      exact iff_of_true rfl (hiff.mp hv)
    · rw [if_neg hv]
      exact iff_of_false (fun h => Except.noConfusion h)
        (fun hall => hv (hiff.mpr hall))
  · intro ms h
    have hdates : ms.map (fun m => m.date) = sortedValidDates rows := by
      rw [aggregate_daily_ok_eq h, List.map_map]
      exact List.map_id (sortedValidDates rows)
    constructor
    · rw [hdates]
      refine List.Sorted.lt_of_le (List.sorted_insertionSort _ _) ?_
      exact ((List.perm_insertionSort _ _).nodup_iff).mpr (List.nodup_dedup _)
    · intro m hm
      rcases mem_of_aggregate_ok h hm with ⟨d, rfl, r, hr, hrt⟩
      exact ⟨r, hr, hrt⟩

/-- Witness for C6 at a concrete aggregation with two dates given in
descending order. -/
theorem C6_sorted_dates_and_guard_witness :
    List.Sorted (· < ·)
      (([⟨1, 0, 0, none⟩, ⟨2, 0, 0, none⟩] : List DailyMetric).map
        (fun m => m.date)) :=
  ((C6_sorted_dates_and_guard
      [⟨some "M", some 2, none⟩, ⟨some "M", some 1, none⟩]).2
    [⟨1, 0, 0, none⟩, ⟨2, 0, 0, none⟩] rfl).1

/-- C3 as stated is false on the code: with an input whose single row
belongs to a different merchant, zero rows match the filter, and the
aggregation stage applied to that empty match fails with `NoValidDates`
(`daily["date"].isna().all()` is vacuously true on an empty frame)
instead of returning an empty sequence. -/
theorem C3_counterexample :
    filter_and_parse [⟨some "M002 - Merchant B", some 0, some 5⟩]
        "M001 - Merchant A" = [] ∧
    aggregate_daily (filter_and_parse [⟨some "M002 - Merchant B", some 0, some 5⟩]
        "M001 - Merchant A") = Except.error AggError.noValidDates := by
  exact ⟨rfl, rfl⟩

/-- C3 amended: when zero rows match the merchant filter, the pipeline
stops before the aggregation stage and surfaces the condition as the
non-fatal informational empty state (a warning), never as a fatal
error; the merchant filter itself returns an empty sequence without
raising. -/
theorem C3_empty_match_warning (rows : List RawRow) (mid : String)
    (h : filter_and_parse rows mid = []) :
    pipeline rows mid = Outcome.emptyState mid ∧
      ∀ e, pipeline rows mid ≠ Outcome.fatal e := by
  have hp : pipeline rows mid = Outcome.emptyState mid := by
    simp [pipeline, h]
  refine ⟨hp, fun e => ?_⟩
  rw [hp]
  intro he
  exact Outcome.noConfusion he

/-- Witness for C3 (amended) at a concrete non-matching input. -/
theorem C3_empty_match_warning_witness :
    pipeline [⟨some "M002 - Merchant B", some 0, some 5⟩] "M001" =
      Outcome.emptyState "M001" :=
  (C3_empty_match_warning [⟨some "M002 - Merchant B", some 0, some 5⟩]
    "M001" rfl).1

theorem loadLoop_skip_error (fs : String → Except String Table) (p : String)
    (ps : List String) (acc : Option String) (e : String)
    (h : fs p = Except.error e) :
    loadLoop fs (p :: ps) acc = loadLoop fs ps (some e) := by
  simp [loadLoop, h]

theorem loadLoop_ok (fs : String → Except String Table) (p : String)
    (ps : List String) (acc : Option String) (t : Table)
    (h : fs p = Except.ok t) :
    loadLoop fs (p :: ps) acc = LoadOutcome.ok p t := by
  simp [loadLoop, h]

theorem loadLoop_append_ok (fs : String → Except String Table) (p : String)
    (t : Table) (h : fs p = Except.ok t) :
    ∀ pre : List String, (∀ q ∈ pre, ∃ e, fs q = Except.error e) →
      ∀ (suf : List String) (acc : Option String),
        loadLoop fs (pre ++ p :: suf) acc = LoadOutcome.ok p t := by
  intro pre
  induction pre with
  | nil =>
    intro _ suf acc
    exact loadLoop_ok fs p suf acc t h
  | cons a l ih =>
    intro hpre suf acc
    rcases hpre a (by simp) with ⟨e, he⟩
    rw [List.cons_append, loadLoop_skip_error fs a _ acc e he]
    exact ih (fun q hq => hpre q (by simp [hq])) suf (some e)

theorem loadLoop_all_error (fs : String → Except String Table)
    (f : String → String) :
    ∀ paths : List String, (∀ q ∈ paths, fs q = Except.error (f q)) →
      ∀ acc : Option String,
        loadLoop fs paths acc =
          LoadOutcome.dataUnavailable
            ((paths.getLast?).elim acc (fun q => some (f q))) := by
  intro paths
  induction paths with
  | nil =>
    intro _ acc
    rfl
  | cons p ps ih =>
    intro h acc
    rw [loadLoop_skip_error fs p ps acc (f p) (h p (by simp))]
    rw [ih (fun q hq => h q (by simp [hq])) (some (f p))]
    congr 1
    cases ps with
    | nil => rfl
    | cons b l =>
      rw [List.getLast?_cons_cons]
      rcases hq : (b :: l).getLast? with - | q
      · exact absurd hq (by simp [List.getLast?_eq_none_iff])
      · rfl

/-- C8: the loader tries each candidate path in order and returns the
first successfully parsed table, tagged with the path it came from;
when every candidate fails, it fails with `DataUnavailable` carrying
the error of the last candidate tried (or no error when the path list
is empty, matching `last_err = None`). -/
theorem C8_first_success_or_last_error :
    (∀ (fs : String → Except String Table) (pre : List String) (p : String)
        (suf : List String) (t : Table),
        (∀ q ∈ pre, ∃ e, fs q = Except.error e) → fs p = Except.ok t →
        load_transactions fs (pre ++ p :: suf) = LoadOutcome.ok p t) ∧
    (∀ (fs : String → Except String Table) (f : String → String)
        (paths : List String),
        (∀ q ∈ paths, fs q = Except.error (f q)) →
        load_transactions fs paths =
          LoadOutcome.dataUnavailable ((paths.getLast?).map f)) := by
  constructor
  · intro fs pre p suf t hpre hp
    exact loadLoop_append_ok fs p t hp pre hpre suf none
  · intro fs f paths h
    rw [load_transactions, loadLoop_all_error fs f paths h none]
    congr 1
    cases paths.getLast? with
    | none => rfl
    | some q => rfl

/-- Witness for C8: a first path that fails and a second that succeeds,
and a run where both paths fail. -/
theorem C8_first_success_or_last_error_witness :
    load_transactions
        (fun q => if q = "sample.csv" then Except.error "missing"
          else Except.ok ⟨[]⟩)
        ["sample.csv", "data/sample.csv"] =
      LoadOutcome.ok "data/sample.csv" ⟨[]⟩ ∧
    load_transactions (fun q => Except.error (String.append "cannot read " q))
        ["sample.csv", "data/sample.csv"] =
      LoadOutcome.dataUnavailable
        (some (String.append "cannot read " "data/sample.csv")) := by
  constructor
  · exact C8_first_success_or_last_error.1
      (fun q => if q = "sample.csv" then Except.error "missing"
        else Except.ok ⟨[]⟩)
      ["sample.csv"] "data/sample.csv" [] ⟨[]⟩
      (fun q hq => ⟨"missing", by rw [List.mem_singleton] at hq; subst hq; rfl⟩)
      rfl
  · exact C8_first_success_or_last_error.2
      (fun q => Except.error (String.append "cannot read " q))
      (fun q => String.append "cannot read " q)
      ["sample.csv", "data/sample.csv"] (fun q _ => rfl)

/-- C1 is the spec's (and the source comment's) intent, but the code
slips: `orders` is computed with pandas `count` over "Settle Amount",
which ignores NaN values, so a matched row with an unparsable amount
does not count toward `orders`.  Here one row falls on day 0 (second
conjunct), yet the emitted `orders` for that day is 0, not 1. -/
theorem C1_orders_counts_only_parsable_amounts :
    aggregate_daily [⟨some "M001 - Merchant A", some 0, none⟩] =
      Except.ok [⟨0, 0, 0, none⟩] ∧
    (List.filter (fun r => r.txTime == some 0)
        [(⟨some "M001 - Merchant A", some 0, none⟩ : RawRow)]).length = 1 := by
  exact ⟨rfl, rfl⟩

/-- C2 is the spec's invariant `orders ≥ 1`, but the code can emit a
day whose rows all have unparsable amounts: the day is emitted (its
date is valid) with `orders = 0`, violating the invariant. -/
theorem C2_emitted_row_with_zero_orders :
    pipeline [⟨some "M002 - Merchant B", some 3, none⟩] "M002 - Merchant B" =
      Outcome.ok [⟨3, 0, 0, none⟩] ∧
    ¬ 1 ≤ (⟨3, 0, 0, none⟩ : DailyMetric).orders := by
  exact ⟨rfl, by decide⟩

end Dashboard
